import Mathlib

/-!
Shallow embedding of the two scripts of the neural2d repository:

* `src/gen/gen2.py` — the synthetic sample generator (Python 2).  Each line is
  the row label followed by a 10×10 grid of markers; the marker at block `j`,
  position `k` is `1` iff `j = k` and `k = i / (samples / 10)` (Python 2
  integer division).  When `samples / 10 = 0` and the loop body runs, the
  division raises `ZeroDivisionError`; this is modelled by `Except.error`.

* `src/tests/images/mnist/makeTrainDataForNeural2d.py` — the MNIST extractor.
  Byte files are modelled as `List Nat` (each element a byte value).  The
  observable outputs are the sequence of bitmap files written (name and pixel
  bytes) and the sequence of manifest lines written (path and target values),
  together with how the run terminated: normal completion, `exit(1)` on a
  format mismatch, an uncaught read/decode exception (`ord` of empty read,
  PIL `frombytes` with insufficient data), or the uncaught `IndexError` from
  indexing the 10-element target list with a label outside `[0,9]`.
-/

namespace Neural2d

set_option maxRecDepth 100000

/-! ## Generator (src/gen/gen2.py) -/

/-- `i / (samples / 10)` from the source, on non-negative integers
(Python 2 `/` on ints is floor division, which agrees with `Nat.div`). -/
def genBucket (samples i : Nat) : Nat := i / (samples / 10)

/-- The 100 grid marker values of one output line, as produced by the two
nested loops `for j in range(10): for k in range(10)`, for bucket value `b`:
position `(j, k)` holds `1` iff `j = k ∧ k = b`, else `-1`. -/
def gridRow (b : Nat) : List Int :=
  (List.range 10).flatMap fun j =>
    (List.range 10).map fun k =>
      if j = k ∧ k = b then 1 else -1

/-- The grid markers of the line for row index `i`. -/
def genRow (samples i : Nat) : List Int := gridRow (genBucket samples i)

/-- The generator loop over the given row indices.  Evaluating the loop body
divides by `samples / 10`; when that is zero Python raises
`ZeroDivisionError`, modelled as `Except.error ()`. -/
def genLines (samples : Nat) : List Nat → Except Unit (List (List Int))
  | [] => Except.ok []
  | i :: rest =>
    if samples / 10 = 0 then Except.error ()
    else
      match genLines samples rest with
      | Except.error e => Except.error e
      | Except.ok rows => Except.ok (genRow samples i :: rows)

/-- The whole generator run: `for i in range(samples): print line(i)`. -/
def genRun (samples : Nat) : Except Unit (List (List Int)) :=
  genLines samples (List.range samples)

/-! ## Extractor (src/tests/images/mnist/makeTrainDataForNeural2d.py) -/

/-- Module-level constant `falseVal = -1`. -/
def falseVal : Int := -1

/-- Module-level constant `trueVal = 1`. -/
def trueVal : Int := 1

/-- The source's manual accumulation of a header field: four successive
one-byte reads starting at `off`, combined as
`b0<<24 + b1<<16 + b2<<8 + b3` (`seek(off)` then four `ord(read(1))`).
`none` models the `TypeError` raised by `ord` on an empty read. -/
def readU32_shift (f : List Nat) (off : Nat) : Option Nat := do
  let b0 ← f[off]?
  let b1 ← f[off + 1]?
  let b2 ← f[off + 2]?
  let b3 ← f[off + 3]?
  return (b0 <<< 24) + (b1 <<< 16) + (b2 <<< 8) + b3

/-- Modelled from the spec: "an explicit big-endian 32-bit unsigned integer
reader over a positioned byte stream (seek-then-read-4-bytes)" — the value is
the big-endian interpretation `b0·2²⁴ + b1·2¹⁶ + b2·2⁸ + b3` of the four
bytes at offsets `off .. off+3`. -/
def readU32be (f : List Nat) (off : Nat) : Option Nat := do
  let b0 ← f[off]?
  let b1 ← f[off + 1]?
  let b2 ← f[off + 2]?
  let b3 ← f[off + 3]?
  return b0 * 2 ^ 24 + b1 * 2 ^ 16 + b2 * 2 ^ 8 + b3

/-- `ifile.read(n)` at position `pos` followed by `Image.frombytes`, which
requires exactly `n` bytes of data: `none` models the PIL `ValueError` when
fewer than `n` bytes remain. -/
def readBytes (f : List Nat) (pos n : Nat) : Option (List Nat) :=
  if pos + n ≤ f.length then some ((f.drop pos).take n) else none

/-- `targetVals = [falseVal]*10; targetVals[label] = trueVal`.  Indexing a
10-element Python list with `label ≥ 10` raises `IndexError`, modelled as
`none`. -/
def targetVals (label : Nat) : Option (List Int) :=
  if label < 10 then some ((List.replicate 10 falseVal).set label trueVal)
  else none

/-- How an extractor run terminated. -/
inductive Term where
  /-- the loop ran to completion -/
  | success : Term
  /-- `exit(1)` on a format-mismatch check -/
  | exitOne : Term
  /-- uncaught exception from a failed read or image decode -/
  | readFail : Term
  /-- uncaught `IndexError` from `targetVals[ord(label)]` -/
  | indexFail : Term
  deriving DecidableEq

/-- The observable outputs of an extractor run: bitmap files written
(in order, name and pixel bytes), manifest lines written (in order, path and
ten target values), and the termination status. -/
structure ExtractResult where
  bitmaps : List (String × List Nat)
  manifest : List (String × List Int)
  term : Term
  deriving DecidableEq

/-- `"%s/%s%d.bmp" % (destDir, prefix, indexNum)` — the name the bitmap file
for record `idx` is saved under. -/
def imageFilename (destDir pfx : String) (idx : Nat) : String :=
  destDir ++ "/" ++ pfx ++ toString idx ++ ".bmp"

/-- The extraction loop `while numImages > 0`, with `n` the remaining record
count, `ipos`/`lpos` the current positions in the image and label streams and
`idx` the running output index.  For each record: read `height*width` image
bytes (failure: PIL exception, nothing written for this record), save the
bitmap, read one label byte (failure: `ord` exception), build the target
vector (failure: `IndexError` for labels outside 0..9), then write the
manifest line `images/mnist/<filename> v0 .. v9`. -/
def extractLoop (ifile lfile : List Nat) (destDir pfx : String)
    (height width : Nat) : Nat → Nat → Nat → Nat → ExtractResult
  | 0, _, _, _ => ⟨[], [], Term.success⟩
  | n + 1, ipos, lpos, idx =>
    match readBytes ifile ipos (height * width) with
    | none => ⟨[], [], Term.readFail⟩
    | some pix =>
      let fname := imageFilename destDir pfx idx
      match lfile[lpos]? with
      | none => ⟨[(fname, pix)], [], Term.readFail⟩
      | some label =>
        match targetVals label with
        | none => ⟨[(fname, pix)], [], Term.indexFail⟩
        | some tv =>
          let rest := extractLoop ifile lfile destDir pfx height width n
              (ipos + height * width) (lpos + 1) (idx + 1)
          ⟨(fname, pix) :: rest.bitmaps,
           ("images/mnist/" ++ fname, tv) :: rest.manifest,
           rest.term⟩

/-- `makeDataSet(imageFile, labelFile, destDir, prefix, configFile)`:
read the label count (offset 4 of the label file) and the image count
(offset 4 of the image file); `exit(1)` if they differ; read height
(offset 8) and width (offset 0xC) of the image file; `exit(1)` unless both
equal 28; then run the extraction loop from offsets 0x10 / 8 with output
index starting at 0. -/
def makeDataSet (imageFile labelFile : List Nat) (destDir pfx : String) :
    ExtractResult :=
  match readU32_shift labelFile 4 with
  | none => ⟨[], [], Term.readFail⟩
  | some numLabels =>
    match readU32_shift imageFile 4 with
    | none => ⟨[], [], Term.readFail⟩
    | some numImages =>
      if numImages ≠ numLabels then ⟨[], [], Term.exitOne⟩
      else
        match readU32_shift imageFile 8 with
        | none => ⟨[], [], Term.readFail⟩
        | some height =>
          match readU32_shift imageFile 12 with
          | none => ⟨[], [], Term.readFail⟩
          | some width =>
            if height ≠ 28 ∨ width ≠ 28 then ⟨[], [], Term.exitOne⟩
            else
              extractLoop imageFile labelFile destDir pfx height width
                numImages 16 8 0

/-- Every label byte (the bytes from offset 8 on in the label file) is in
the valid range `0..9`. -/
def labelsOk (lfile : List Nat) : Prop := ∀ L ∈ lfile.drop 8, L < 10

instance (lfile : List Nat) : Decidable (labelsOk lfile) := by
  unfold labelsOk; infer_instance

/-! ## Concrete inputs used by witnesses and counterexamples -/

/-- An image file: well-formed header (item count 1, height 28, width 28)
followed by the 784 pixel bytes of one record. -/
def imgA : List Nat :=
  [0, 0, 8, 3, 0, 0, 0, 1, 0, 0, 0, 28, 0, 0, 0, 28] ++ List.replicate 784 0

/-- A label file: header (item count 1) followed by one label byte `3`. -/
def lblA : List Nat := [0, 0, 8, 1, 0, 0, 0, 1, 3]

/-- An image file consisting of a header only: it declares 1 item of 28×28
but contains no pixel data at all. -/
def imgHdrOnly : List Nat :=
  [0, 0, 8, 3, 0, 0, 0, 1, 0, 0, 0, 28, 0, 0, 0, 28]

/-- A label file declaring 1 item, with one label byte `7`. -/
def lblB : List Nat := [0, 0, 8, 1, 0, 0, 0, 1, 7]

/-- A label file declaring 1 item, with one out-of-range label byte `12`. -/
def lblBad : List Nat := [0, 0, 8, 1, 0, 0, 0, 1, 12]

/-- An image file declaring 1 item with height 29 and width 28. -/
def imgWrongDim : List Nat :=
  [0, 0, 8, 3, 0, 0, 0, 1, 0, 0, 0, 29, 0, 0, 0, 28]

/-- A label file declaring 2 items. -/
def lblTwo : List Nat := [0, 0, 8, 1, 0, 0, 0, 2, 3, 7]

/-! ## Generator lemmas -/

lemma genLines_ok (samples : Nat) (h10 : samples / 10 ≠ 0) (l : List Nat) :
    genLines samples l = Except.ok (l.map (genRow samples)) := by
  induction l with
  | nil => rfl
  | cons i rest ih => simp only [genLines, if_neg h10, ih, List.map_cons]

lemma genRun_ok (samples : Nat) (h10 : samples / 10 ≠ 0) :
    genRun samples = Except.ok ((List.range samples).map (genRow samples)) :=
  genLines_ok samples h10 (List.range samples)

lemma genRun_err (samples : Nat) (hpos : 0 < samples) (h10 : samples / 10 = 0) :
    genRun samples = Except.error () := by
  obtain ⟨m, rfl⟩ : ∃ m, samples = m + 1 := ⟨samples - 1, by omega⟩
  unfold genRun
  rw [List.range_succ_eq_map]
  simp only [genLines, if_pos h10]

lemma gridRow_spec (b : Nat) (hb : b ≤ 9) :
    (gridRow b).count 1 = 1 ∧ (gridRow b).count (-1) = 99 ∧
      (gridRow b)[10 * b + b]? = some 1 := by
  interval_cases b <;> exact ⟨by decide, by decide, by decide⟩

lemma gridRow_of_ge (b : Nat) (hb : 10 ≤ b) :
    gridRow b = List.replicate 100 (-1) := by
  rw [List.eq_replicate_iff]
  constructor
  · simp only [gridRow, List.length_flatMap, Function.comp_def, List.length_map,
      List.length_range]
    decide
  · intro x hx
    simp only [gridRow, List.mem_flatMap, List.mem_map, List.mem_range] at hx
    obtain ⟨j, hj, k, hk, hx⟩ := hx
    rw [if_neg] at hx
    · exact hx.symm
    · rintro ⟨rfl, rfl⟩
      omega

/-! ## Extractor lemmas -/

lemma targetVals_eq_some {L : Nat} {tv : List Int} (h : targetVals L = some tv) :
    L < 10 ∧ tv = (List.replicate 10 falseVal).set L trueVal := by
  unfold targetVals at h
  split at h
  · exact ⟨by assumption, (Option.some.inj h).symm⟩
  · cases h

lemma targetVals_of_lt {L : Nat} (h : L < 10) :
    targetVals L = some ((List.replicate 10 falseVal).set L trueVal) := by
  unfold targetVals
  rw [if_pos h]

lemma targetVals_of_ge {L : Nat} (h : 10 ≤ L) : targetVals L = none := by
  unfold targetVals
  rw [if_neg (by omega)]

lemma labelsOk_get {lfile : List Nat} (h : labelsOk lfile) :
    ∀ q L, 8 ≤ q → lfile[q]? = some L → L < 10 := by
  intro q L hq hL
  apply h
  have h8 : (lfile.drop 8)[q - 8]? = some L := by
    rw [List.getElem?_drop, show 8 + (q - 8) = q by omega]
    exact hL
  exact List.getElem?_mem h8

lemma extractLoop_manifest (ifile lfile : List Nat) (d p : String) (hgt wid : Nat) :
    ∀ (n ipos lpos idx r : Nat) (mline : String × List Int),
      (extractLoop ifile lfile d p hgt wid n ipos lpos idx).manifest[r]? = some mline →
      ∃ L, lfile[lpos + r]? = some L ∧ L < 10 ∧
        mline = ("images/mnist/" ++ imageFilename d p (idx + r),
                 (List.replicate 10 falseVal).set L trueVal) := by
  intro n
  induction n with
  | zero =>
    intro ipos lpos idx r mline h
    simp [extractLoop] at h
  | succ n ih =>
    intro ipos lpos idx r mline h
    rw [extractLoop] at h
    split at h
    · simp at h
    · split at h
      · simp at h
      · rename_i pix _ L hlb
        split at h
        · simp at h
        · rename_i tv htv
          obtain ⟨hL, htv'⟩ := targetVals_eq_some htv
          cases r with
          | zero =>
            simp only [List.getElem?_cons_zero, Option.some.injEq] at h
            exact ⟨L, by simpa using hlb, hL, by simp [← h, htv']⟩
          | succ r =>
            simp only [List.getElem?_cons_succ] at h
            obtain ⟨L', h1, h2, h3⟩ := ih (ipos + hgt * wid) (lpos + 1) (idx + 1) r mline h
            refine ⟨L', ?_, h2, ?_⟩
            · rw [show lpos + (r + 1) = lpos + 1 + r by omega]
              exact h1
            · rw [show idx + (r + 1) = idx + 1 + r by omega]
              exact h3

lemma extractLoop_bitmaps (ifile lfile : List Nat) (d p : String) (hgt wid : Nat) :
    ∀ (n ipos lpos idx r : Nat) (bm : String × List Nat),
      (extractLoop ifile lfile d p hgt wid n ipos lpos idx).bitmaps[r]? = some bm →
      bm.1 = imageFilename d p (idx + r) := by
  intro n
  induction n with
  | zero =>
    intro ipos lpos idx r bm h
    simp [extractLoop] at h
  | succ n ih =>
    intro ipos lpos idx r bm h
    rw [extractLoop] at h
    split at h
    · simp at h
    · split at h
      · cases r with
        | zero => simp at h; simp [← h]
        | succ r => simp at h
      · split at h
        · cases r with
          | zero => simp at h; simp [← h]
          | succ r => simp at h
        · cases r with
          | zero => simp at h; simp [← h]
          | succ r =>
            simp only [List.getElem?_cons_succ] at h
            have := ih (ipos + hgt * wid) (lpos + 1) (idx + 1) r bm h
            rw [show idx + (r + 1) = idx + 1 + r by omega]
            exact this

lemma extractLoop_success (ifile lfile : List Nat) (d p : String) (hgt wid : Nat)
    (hgood : ∀ q L, 8 ≤ q → lfile[q]? = some L → L < 10) :
    ∀ n ipos lpos idx,
      ipos + n * (hgt * wid) ≤ ifile.length →
      lpos + n ≤ lfile.length → 8 ≤ lpos →
      (extractLoop ifile lfile d p hgt wid n ipos lpos idx).term = Term.success ∧
      (extractLoop ifile lfile d p hgt wid n ipos lpos idx).bitmaps.length = n ∧
      (extractLoop ifile lfile d p hgt wid n ipos lpos idx).manifest.length = n := by
  intro n
  induction n with
  | zero => intro ipos lpos idx _ _ _; exact ⟨rfl, rfl, rfl⟩
  | succ n ih =>
    intro ipos lpos idx hilen hllen hlpos
    have hsm : (n + 1) * (hgt * wid) = n * (hgt * wid) + hgt * wid :=
      Nat.succ_mul n (hgt * wid)
    have hrb : readBytes ifile ipos (hgt * wid)
        = some ((ifile.drop ipos).take (hgt * wid)) := by
      unfold readBytes
      rw [if_pos (by omega)]
    have hlt : lpos < lfile.length := by omega
    have hlb : lfile[lpos]? = some lfile[lpos] := List.getElem?_eq_getElem hlt
    have hL : lfile[lpos] < 10 := hgood lpos lfile[lpos] hlpos hlb
    obtain ⟨h1, h2, h3⟩ := ih (ipos + hgt * wid) (lpos + 1) (idx + 1)
      (by omega) (by omega) (by omega)
    rw [extractLoop]
    simp only [hrb, hlb, targetVals_of_lt hL]
    exact ⟨h1, by simp [h2], by simp [h3]⟩

lemma extractLoop_no_indexFail (ifile lfile : List Nat) (d p : String) (hgt wid : Nat)
    (hgood : ∀ q L, 8 ≤ q → lfile[q]? = some L → L < 10) :
    ∀ n ipos lpos idx, 8 ≤ lpos →
      (extractLoop ifile lfile d p hgt wid n ipos lpos idx).term ≠ Term.indexFail := by
  intro n
  induction n with
  | zero => intro ipos lpos idx _ h; simp [extractLoop] at h
  | succ n ih =>
    intro ipos lpos idx hlpos
    rw [extractLoop]
    split
    · simp
    · split
      · simp
      · rename_i pix _ L hlb
        split
        · rename_i htv
          rw [targetVals_of_lt (hgood lpos L hlpos hlb)] at htv
          cases htv
        · exact ih (ipos + hgt * wid) (lpos + 1) (idx + 1) (by omega)

lemma makeDataSet_manifest (ifile lfile : List Nat) (d p : String) (r : Nat)
    (mline : String × List Int)
    (h : (makeDataSet ifile lfile d p).manifest[r]? = some mline) :
    ∃ L, lfile[8 + r]? = some L ∧ L < 10 ∧
      mline = ("images/mnist/" ++ imageFilename d p r,
               (List.replicate 10 falseVal).set L trueVal) := by
  unfold makeDataSet at h
  split at h
  · simp at h
  · split at h
    · simp at h
    · split at h
      · simp at h
      · split at h
        · simp at h
        · split at h
          · simp at h
          · split at h
            · simp at h
            · have := extractLoop_manifest ifile lfile d p _ _ _ 16 8 0 r mline h
              simpa using this

lemma makeDataSet_eq_loop (ifile lfile : List Nat) (d p : String) (N : Nat)
    (hl : readU32_shift lfile 4 = some N) (hi : readU32_shift ifile 4 = some N)
    (hh : readU32_shift ifile 8 = some 28) (hw : readU32_shift ifile 12 = some 28) :
    makeDataSet ifile lfile d p = extractLoop ifile lfile d p 28 28 N 16 8 0 := by
  simp only [makeDataSet, hl, hi, hh, hw]
  simp

/-! ## Claim theorems -/

/-- C1: every manifest line the extractor writes is for a record whose label
byte `L` is in `[0,9]`, and its 10-element target vector (written after the
path) has `trueVal` at zero-indexed position `L` and `falseVal` at the other
9 positions, with the module-level defaults `trueVal = 1`, `falseVal = -1`. -/
theorem extractor_manifest_one_hot (ifile lfile : List Nat) (d pfx : String)
    (r : Nat) (mline : String × List Int)
    (h : (makeDataSet ifile lfile d pfx).manifest[r]? = some mline) :
    ∃ L, lfile[8 + r]? = some L ∧ L < 10 ∧ trueVal = 1 ∧ falseVal = -1 ∧
      mline.2.length = 10 ∧
      ∀ pos, pos < 10 →
        mline.2[pos]? = some (if pos = L then trueVal else falseVal) := by
  obtain ⟨L, h1, h2, h3⟩ := makeDataSet_manifest ifile lfile d pfx r mline h
  refine ⟨L, h1, h2, rfl, rfl, by rw [h3]; simp, ?_⟩
  intro pos hpos
  rw [h3]
  rcases eq_or_ne pos L with rfl | hne
  · simp [List.getElem?_set, h2]
  · rw [List.getElem?_set, if_neg (by omega), List.getElem?_replicate,
      if_pos hpos, if_neg hne]

/-- C1 witness: on a one-record input with label byte `3`, the single
manifest line's target vector is `-1 -1 -1 1 -1 -1 -1 -1 -1 -1`. -/
theorem extractor_manifest_one_hot_witness :
    ∃ L, lblA[8 + 0]? = some L ∧ L < 10 ∧ trueVal = 1 ∧ falseVal = -1 ∧
      ([(-1 : Int), -1, -1, 1, -1, -1, -1, -1, -1, -1] : List Int).length = 10 ∧
      ∀ pos, pos < 10 →
        ([(-1 : Int), -1, -1, 1, -1, -1, -1, -1, -1, -1] : List Int)[pos]?
          = some (if pos = L then trueVal else falseVal) :=
  extractor_manifest_one_hot imgA lblA "d" "" 0
    ("images/mnist/d/0.bmp", [-1, -1, -1, 1, -1, -1, -1, -1, -1, -1]) (by decide)

/-- C2 counterexample: the image file `imgHdrOnly` and label file `lblB`
declare equal item counts (1) and 28×28 dimensions, yet the run writes zero
bitmap files and zero manifest lines (it dies decoding the first record,
since the declared record has no pixel data) instead of the claimed one
bitmap and one manifest line. -/
theorem extractor_declared_count_counterexample :
    readU32_shift imgHdrOnly 4 = some 1 ∧ readU32_shift lblB 4 = some 1 ∧
    readU32_shift imgHdrOnly 8 = some 28 ∧ readU32_shift imgHdrOnly 12 = some 28 ∧
    makeDataSet imgHdrOnly lblB "d" "" = ⟨[], [], Term.readFail⟩ ∧
    (makeDataSet imgHdrOnly lblB "d" "").bitmaps.length = 0 ∧
    (makeDataSet imgHdrOnly lblB "d" "").manifest.length = 0 := by
  decide

/-- C2 amended: for every pair of input files whose headers declare equal
item counts `N` and 28×28 dimensions, AND which contain the declared data
(at least `16 + N*784` image bytes and `8 + N` label bytes, every label byte
in `[0,9]`), the extractor completes and writes exactly `N` bitmap files,
named `{prefix}{index}.bmp` with index running consecutively from `0`, and a
manifest of exactly `N` lines in record order. -/
theorem extractor_declared_count_amended (ifile lfile : List Nat)
    (d pfx : String) (N : Nat)
    (hl : readU32_shift lfile 4 = some N) (hi : readU32_shift ifile 4 = some N)
    (hh : readU32_shift ifile 8 = some 28) (hw : readU32_shift ifile 12 = some 28)
    (hilen : 16 + N * 784 ≤ ifile.length) (hllen : 8 + N ≤ lfile.length)
    (hlab : labelsOk lfile) :
    (makeDataSet ifile lfile d pfx).term = Term.success ∧
    (makeDataSet ifile lfile d pfx).bitmaps.length = N ∧
    (makeDataSet ifile lfile d pfx).manifest.length = N ∧
    ∀ r, r < N → ∃ pix,
      (makeDataSet ifile lfile d pfx).bitmaps[r]? = some (imageFilename d pfx r, pix) := by
  have hmk := makeDataSet_eq_loop ifile lfile d pfx N hl hi hh hw
  obtain ⟨h1, h2, h3⟩ := extractLoop_success ifile lfile d pfx 28 28
    (labelsOk_get hlab) N 16 8 0
    (by rw [show (28 * 28 : Nat) = 784 from rfl]; omega) (by omega) (by omega)
  rw [hmk]
  refine ⟨h1, h2, h3, ?_⟩
  intro r hr
  have hrlen : r < (extractLoop ifile lfile d pfx 28 28 N 16 8 0).bitmaps.length := by
    omega
  have hbm : (extractLoop ifile lfile d pfx 28 28 N 16 8 0).bitmaps[r]?
      = some (extractLoop ifile lfile d pfx 28 28 N 16 8 0).bitmaps[r] :=
    List.getElem?_eq_getElem hrlen
  have hname := extractLoop_bitmaps ifile lfile d pfx 28 28 N 16 8 0 r _ hbm
  refine ⟨(extractLoop ifile lfile d pfx 28 28 N 16 8 0).bitmaps[r].2, ?_⟩
  rw [hbm]
  simp only [Nat.zero_add] at hname
  rw [← hname]

/-- C2 amended witness: the one-record pair `imgA`/`lblA` yields exactly one
bitmap, named `0.bmp` in the destination directory, and one manifest line. -/
theorem extractor_declared_count_amended_witness :
    (makeDataSet imgA lblA "d" "").term = Term.success ∧
    (makeDataSet imgA lblA "d" "").bitmaps.length = 1 ∧
    (makeDataSet imgA lblA "d" "").manifest.length = 1 ∧
    ∀ r, r < 1 → ∃ pix,
      (makeDataSet imgA lblA "d" "").bitmaps[r]? = some (imageFilename "d" "" r, pix) :=
  extractor_declared_count_amended imgA lblA "d" "" 1 (by decide) (by decide)
    (by decide) (by decide) (by decide) (by decide) (by decide)

/-- C3: when the label-file header's item count and the image-file header's
item count differ, the run exits with status 1 having written no bitmap file
and no manifest line (the dimension fields need not even be readable). -/
theorem extractor_count_mismatch_aborts (ifile lfile : List Nat)
    (d pfx : String) (ni nl : Nat)
    (hl : readU32_shift lfile 4 = some nl) (hi : readU32_shift ifile 4 = some ni)
    (hne : ni ≠ nl) :
    makeDataSet ifile lfile d pfx = ⟨[], [], Term.exitOne⟩ := by
  simp only [makeDataSet, hl, hi]
  rw [if_pos hne]

/-- C3 witness: an image file declaring 1 item against a label file
declaring 2 items exits with status 1 and no outputs. -/
theorem extractor_count_mismatch_aborts_witness :
    makeDataSet imgA lblTwo "d" "" = ⟨[], [], Term.exitOne⟩ :=
  extractor_count_mismatch_aborts imgA lblTwo "d" "" 1 2 (by decide) (by decide)
    (by decide)

/-- C4: for every `samples > 0` that is a multiple of 10, the generator
emits exactly `samples` rows; each row's grid holds exactly one `1` marker
and 99 `-1` markers, the `1` sitting at grid position `(bucket, bucket)`
(flattened index `10*bucket + bucket`) for `bucket = i / (samples / 10)`. -/
theorem generator_multiple_of_ten (samples : Nat) (hpos : 0 < samples)
    (hdiv : samples % 10 = 0) :
    ∃ rows, genRun samples = Except.ok rows ∧ rows.length = samples ∧
      ∀ i, i < samples → ∃ row, rows[i]? = some row ∧
        row.count 1 = 1 ∧ row.count (-1) = 99 ∧
        row[10 * genBucket samples i + genBucket samples i]? = some 1 := by
  have h10 : samples / 10 ≠ 0 := by omega
  refine ⟨_, genRun_ok samples h10, by simp, ?_⟩
  intro i hi
  have h1 : 0 < samples / 10 := by omega
  have hb : genBucket samples i < 10 :=
    (Nat.div_lt_iff_lt_mul h1).mpr (by omega)
  obtain ⟨hc1, hc2, hc3⟩ := gridRow_spec (genBucket samples i) (by omega)
  exact ⟨genRow samples i,
    by rw [List.getElem?_map, List.getElem?_range hi]; rfl, hc1, hc2, hc3⟩

/-- C4 witness: `samples = 20` gives 20 rows each with a single `1` marker
in the right place. -/
theorem generator_multiple_of_ten_witness :
    ∃ rows, genRun 20 = Except.ok rows ∧ rows.length = 20 ∧
      ∀ i, i < 20 → ∃ row, rows[i]? = some row ∧
        row.count 1 = 1 ∧ row.count (-1) = 99 ∧
        row[10 * genBucket 20 i + genBucket 20 i]? = some 1 :=
  generator_multiple_of_ten 20 (by decide) (by decide)

/-- C5: with matching item counts but a declared height or width different
from 28, the run exits with status 1 having written no bitmap file and no
manifest line; and the item-count check comes first — whenever the counts
differ the run exits the same way with the dimension fields never
validated (they may hold anything, or be unreadable). -/
theorem extractor_bad_dims_aborts (ifile lfile : List Nat) (d pfx : String) :
    (∀ N hgt wid, readU32_shift lfile 4 = some N → readU32_shift ifile 4 = some N →
      readU32_shift ifile 8 = some hgt → readU32_shift ifile 12 = some wid →
      hgt ≠ 28 ∨ wid ≠ 28 →
      makeDataSet ifile lfile d pfx = ⟨[], [], Term.exitOne⟩) ∧
    (∀ ni nl, readU32_shift lfile 4 = some nl → readU32_shift ifile 4 = some ni →
      ni ≠ nl → makeDataSet ifile lfile d pfx = ⟨[], [], Term.exitOne⟩) := by
  constructor
  · intro N hgt wid hl hi hh hw hbad
    simp only [makeDataSet, hl, hi, hh, hw]
    rw [if_neg (by simp), if_pos hbad]
  · intro ni nl hl hi hne
    simp only [makeDataSet, hl, hi]
    rw [if_pos hne]

/-- C5 witness: a 29×28 image file with matching count 1 exits with status
1 and no outputs; so does a count mismatch regardless of dimensions. -/
theorem extractor_bad_dims_aborts_witness :
    makeDataSet imgWrongDim lblB "d" "" = ⟨[], [], Term.exitOne⟩ ∧
    makeDataSet imgA lblTwo "dd" "" = ⟨[], [], Term.exitOne⟩ :=
  ⟨(extractor_bad_dims_aborts imgWrongDim lblB "d" "").1 1 29 28 (by decide)
      (by decide) (by decide) (by decide) (by decide),
   (extractor_bad_dims_aborts imgA lblTwo "dd" "").2 1 2 (by decide) (by decide)
      (by decide)⟩

/-- C6: a label byte in `10..255` makes the target-vector construction fail
(`targetVals` has no value), and a record reached with such a label aborts
the run with an `IndexError` — its bitmap is already written but no manifest
line is, and nothing further is produced; conversely a run whose label bytes
are all in `[0,9]` never terminates with that indexing error. -/
theorem extractor_label_range (ifile lfile : List Nat) (d pfx : String) :
    (∀ L, 10 ≤ L → targetVals L = none) ∧
    (∀ n ipos lpos idx pix L,
      readBytes ifile ipos (28 * 28) = some pix → lfile[lpos]? = some L → 10 ≤ L →
      extractLoop ifile lfile d pfx 28 28 (n + 1) ipos lpos idx
        = ⟨[(imageFilename d pfx idx, pix)], [], Term.indexFail⟩) ∧
    (labelsOk lfile → (makeDataSet ifile lfile d pfx).term ≠ Term.indexFail) := by
  refine ⟨fun L hL => targetVals_of_ge hL, ?_, ?_⟩
  · intro n ipos lpos idx pix L hrb hlb hL
    rw [extractLoop]
    simp only [hrb, hlb, targetVals_of_ge hL]
  · intro hlab
    unfold makeDataSet
    split
    · simp
    · split
      · simp
      · split
        · simp
        · split
          · simp
          · split
            · simp
            · split
              · simp
              · exact extractLoop_no_indexFail ifile lfile d pfx _ _
                  (labelsOk_get hlab) _ 16 8 0 (by omega)

/-- C6 witness: label byte 12 has no target vector; a record with label 12
aborts after its bitmap and before its manifest line; a run whose only label
is 3 never raises the indexing error. -/
theorem extractor_label_range_witness :
    targetVals 12 = none ∧
    extractLoop imgA lblBad "w" "" 28 28 1 16 8 0
      = ⟨[(imageFilename "w" "" 0, List.replicate 784 0)], [], Term.indexFail⟩ ∧
    (makeDataSet imgA lblA "w" "").term ≠ Term.indexFail :=
  ⟨(extractor_label_range imgA lblBad "w" "").1 12 (by decide),
   (extractor_label_range imgA lblBad "w" "").2.1 0 16 8 0 (List.replicate 784 0)
      12 (by decide) (by decide) (by decide),
   (extractor_label_range imgA lblA "w" "").2.2 (by decide)⟩

/-- C7 counterexample: `samples = 5` is a positive integer, yet the
generator fails: Python 2 computes `samples/10 = 0` and the loop body's
division `i/(samples/10)` raises `ZeroDivisionError`. -/
theorem generator_small_samples_counterexample :
    0 < 5 ∧ genRun 5 = Except.error () := ⟨by decide, rfl⟩

/-- C7 amended: the generator completes without raising an error exactly
when `samples = 0` (empty loop) or `samples ≥ 10`; for `1 ≤ samples ≤ 9` it
aborts with a division-by-zero error because `samples/10 = 0`. -/
theorem generator_error_characterization (samples : Nat) :
    (∃ rows, genRun samples = Except.ok rows) ↔ samples = 0 ∨ 10 ≤ samples := by
  constructor
  · rintro ⟨rows, hr⟩
    by_contra hcon
    push_neg at hcon
    rw [genRun_err samples (by omega) (by omega)] at hr
    cases hr
  · rintro (rfl | h)
    · exact ⟨[], rfl⟩
    · exact ⟨_, genRun_ok samples (by omega)⟩

/-- C8: for `samples` not divisible by 10, any row whose bucket value
`i / (samples/10)` exceeds 9 carries zero `1` markers — all 100 grid
markers are `-1`. -/
theorem generator_non_multiple_trailing_rows (samples i : Nat)
    (hnd : samples % 10 ≠ 0) (hi : i < samples) (hb : 9 < genBucket samples i) :
    ∃ rows row, genRun samples = Except.ok rows ∧ rows[i]? = some row ∧
      row.count 1 = 0 ∧ row = List.replicate 100 (-1) := by
  have h10 : samples / 10 ≠ 0 := by
    intro h
    unfold genBucket at hb
    rw [h, Nat.div_zero] at hb
    omega
  refine ⟨_, genRow samples i, genRun_ok samples h10, ?_, ?_, ?_⟩
  · rw [List.getElem?_map, List.getElem?_range hi]
    rfl
  · show (gridRow (genBucket samples i)).count 1 = 0
    rw [gridRow_of_ge _ (by omega)]
    decide
  · show gridRow (genBucket samples i) = _
    exact gridRow_of_ge _ (by omega)

/-- C8 witness: `samples = 15`, row `i = 12` has bucket `12 > 9` and an
all-`-1` grid. -/
theorem generator_non_multiple_trailing_rows_witness :
    ∃ rows row, genRun 15 = Except.ok rows ∧ rows[12]? = some row ∧
      row.count 1 = 0 ∧ row = List.replicate 100 (-1) :=
  generator_non_multiple_trailing_rows 15 12 (by decide) (by decide) (by decide)

/-- C9: the source's manual byte-shift accumulation over four single-byte
reads computes, at every offset of every byte stream — in particular at the
four header fields it is used for (label count and image count at offset 4,
height at offset 8, width at offset 0xC) — exactly the value of the
spec's big-endian 32-bit unsigned integer reader positioned at the same
offset. -/
theorem reader_refinement (f : List Nat) (off : Nat) :
    readU32_shift f off = readU32be f off := by
  unfold readU32_shift readU32be
  cases f[off]? <;> cases f[off + 1]? <;> cases f[off + 2]? <;>
    cases f[off + 3]? <;> simp [Nat.shiftLeft_eq]

/-- C10: the path field of every manifest line the extractor writes is the
hardcoded literal `images/mnist/` followed by the destination-directory
relative bitmap filename `{destDir}/{prefix}{index}.bmp`, where the index
is the line's zero-based record number. -/
theorem manifest_path_hardcoded (ifile lfile : List Nat) (d pfx : String)
    (r : Nat) (path : String) (tv : List Int)
    (h : (makeDataSet ifile lfile d pfx).manifest[r]? = some (path, tv)) :
    path = "images/mnist/" ++ imageFilename d pfx r := by
  obtain ⟨L, _, _, h3⟩ := makeDataSet_manifest ifile lfile d pfx r (path, tv) h
  exact congrArg Prod.fst h3

/-- C10 witness: the one-record run writes the manifest path
`images/mnist/d/0.bmp` for destination directory `d` and empty prefix. -/
theorem manifest_path_hardcoded_witness :
    "images/mnist/d/0.bmp" = "images/mnist/" ++ imageFilename "d" "" 0 :=
  manifest_path_hardcoded imgA lblA "d" "" 0 "images/mnist/d/0.bmp"
    [-1, -1, -1, 1, -1, -1, -1, -1, -1, -1] (by decide)

end Neural2d
